import Mathlib

/-!
Verification development for the property-management core: the Drizzle
schema in `src/scheme.ts` (tables `tenants`, `payments`, `invoices`,
`mpesa_transactions`, `maintenance_requests` and their insert schemas) is
embedded as Lean structures, and the consistency / state-transition engine
described by the specification (lease lifecycle, billing, payment
reconciliation, maintenance workflow) is modelled from the spec, since the
repository ships only the schema.
-/

namespace PropMgmt

/-- Embeds `paymentStatusEnum` from src/scheme.ts line 9:
`['pending', 'paid', 'overdue', 'partial']`.  The `'partial'` literal is
rendered as `partPaid` because `partial` is a Lean keyword. -/
inductive PaymentStatus
  | pending
  | paid
  | overdue
  | partPaid
deriving DecidableEq, Repr

/-- Embeds `maintenanceStatusEnum` from src/scheme.ts line 8:
`['pending', 'in_progress', 'completed', 'canceled']`. -/
inductive MaintenanceStatus
  | pending
  | in_progress
  | completed
  | canceled
deriving DecidableEq, Repr

/-- Embeds `mpesaTransactionTypeEnum` from src/scheme.ts lines 78-83. -/
inductive MpesaTransactionType
  | customer_paybill
  | customer_buygoods
  | business_payment
  | business_transfer
deriving DecidableEq, Repr

/-- Error taxonomy of the spec (§7): ValidationError, ConflictError,
NotFoundError, InvalidTransitionError. -/
inductive Err
  | validationError
  | conflictError
  | notFoundError
  | invalidTransitionError
deriving DecidableEq, Repr

/-- Embeds the `tenants` table (src/scheme.ts lines 64-75).  `timestamp`
columns are embedded as `Int`, `numeric` money columns as `Int`, nullable
columns as `Option`. -/
structure Tenant where
  id : Nat
  userId : Nat
  propertyId : Option Nat
  unitId : Option Nat
  leaseStart : Int
  leaseEnd : Int
  rentAmount : Int
  securityDeposit : Int
  isActive : Bool
  createdAt : Int
deriving DecidableEq, Repr

/-- Embeds `insertTenantSchema` (src/scheme.ts line 150):
`createInsertSchema(tenants).omit({ id: true, createdAt: true })`.
Columns with a database default (`isActive`) become optional inputs. -/
structure InsertTenant where
  userId : Nat
  propertyId : Option Nat
  unitId : Option Nat
  leaseStart : Int
  leaseEnd : Int
  rentAmount : Int
  securityDeposit : Int
  isActive : Option Bool
deriving DecidableEq, Repr

/-- Materialises an `InsertTenant` row: the database assigns `id` and
`createdAt`, and `isActive` falls back to the column default `true`
(src/scheme.ts line 73: `boolean("is_active").default(true).notNull()`). -/
def resolveInsertTenant (id : Nat) (createdAt : Int) (ins : InsertTenant) : Tenant :=
  { id := id
    userId := ins.userId
    propertyId := ins.propertyId
    unitId := ins.unitId
    leaseStart := ins.leaseStart
    leaseEnd := ins.leaseEnd
    rentAmount := ins.rentAmount
    securityDeposit := ins.securityDeposit
    isActive := ins.isActive.getD true
    createdAt := createdAt }

/-- Embeds the `invoices` table (src/scheme.ts lines 120-129).
`periodStart` is an extra keying field.  Modelled from the spec: §4.2 makes
`generateInvoice` idempotent per `(tenantId, periodStart)`, but the billing
code is not in the repository, so the period key the spec requires is
carried on the invoice record here. -/
structure Invoice where
  id : Nat
  tenantId : Nat
  amount : Int
  issueDate : Int
  dueDate : Int
  status : PaymentStatus
  notes : Option String
  createdAt : Int
  periodStart : Int
deriving DecidableEq, Repr

/-- Embeds the `payments` table (src/scheme.ts lines 103-117). -/
structure Payment where
  id : Nat
  tenantId : Nat
  amount : Int
  currencySymbol : String
  paymentDate : Int
  dueDate : Int
  status : PaymentStatus
  paymentMethod : String
  mpesaTransactionId : Option String
  paymentReference : Option String
  notes : Option String
  receivedById : Option Nat
  createdAt : Int
deriving DecidableEq, Repr

/-- Embeds the `mpesa_transactions` table (src/scheme.ts lines 86-100); this
is the spec's GatewayTransaction entity.  `transactionId` carries a unique
constraint and `paymentId` is the optional link to a Payment. -/
structure MpesaTransaction where
  id : Nat
  transactionId : String
  transactionType : MpesaTransactionType
  phoneNumber : String
  amount : Int
  reference : Option String
  description : Option String
  paymentId : Option Nat
  status : String
  responseCode : Option String
  responseDescription : Option String
  transactionDate : Int
  createdAt : Int
deriving DecidableEq, Repr

/-- Embeds the `maintenance_requests` table (src/scheme.ts lines 132-144). -/
structure MaintenanceRequest where
  id : Nat
  tenantId : Nat
  propertyId : Nat
  unitId : Option Nat
  title : String
  description : String
  priority : String
  status : MaintenanceStatus
  submittedAt : Int
  completedAt : Option Int
  notes : Option String
deriving DecidableEq, Repr

/-- Embeds `insertMaintenanceRequestSchema` (src/scheme.ts line 153):
`createInsertSchema(maintenanceRequests).omit({ id: true, submittedAt: true,
completedAt: true })` — the caller cannot supply `id`, `submittedAt` or
`completedAt`; `status` has a default and so is optional. -/
structure InsertMaintenanceRequest where
  tenantId : Nat
  propertyId : Nat
  unitId : Option Nat
  title : String
  description : String
  priority : String
  status : Option MaintenanceStatus
  notes : Option String
deriving DecidableEq, Repr

/-- Materialises an `InsertMaintenanceRequest` row: the database assigns
`id`, `submittedAt` defaults to now (src/scheme.ts line 141), `completedAt`
starts null (line 142) and `status` falls back to the column default
`'pending'` (line 140). -/
def resolveInsertMaintenanceRequest (id : Nat) (now : Int)
    (ins : InsertMaintenanceRequest) : MaintenanceRequest :=
  { id := id
    tenantId := ins.tenantId
    propertyId := ins.propertyId
    unitId := ins.unitId
    title := ins.title
    description := ins.description
    priority := ins.priority
    status := ins.status.getD .pending
    submittedAt := now
    completedAt := none
    notes := ins.notes }

/-- Modelled from the spec: §4.3 step 4 records how much of a Payment was
applied to each Invoice ("Allocation" in the glossary); the repository has
no table for it, so it is kept as an explicit link record. -/
structure Allocation where
  paymentId : Nat
  invoiceId : Nat
  amount : Int
deriving DecidableEq, Repr

/-- The entity store (spec §2): one list per embedded table plus the serial
id counter (`serial` columns start at 1 in Postgres). -/
structure St where
  tenants : List Tenant
  invoices : List Invoice
  payments : List Payment
  allocations : List Allocation
  mpesa : List MpesaTransaction
  maintenance : List MaintenanceRequest
  nextId : Nat
deriving DecidableEq, Repr

/-- The empty store. -/
def St.empty : St :=
  { tenants := [], invoices := [], payments := [], allocations := []
    mpesa := [], maintenance := [], nextId := 1 }

/-- Sum of the Payment amounts allocated to one Invoice — the
"sum(linked Payments)" of spec §4.2. -/
def paidSum (s : St) (iid : Nat) : Int :=
  ((s.allocations.filter (fun a => a.invoiceId == iid)).map (fun a => a.amount)).sum

/-- Modelled from the spec: §4.2 `recomputeStatus` — the pure status
function: paid if sum ≥ amount; partial if 0 < sum < amount; overdue if
sum < amount and now > dueDate; else pending.  The billing code is not in
the repository. -/
def invoiceStatusOf (paid amount dueDate now : Int) : PaymentStatus :=
  if amount ≤ paid then .paid
  else if 0 < paid then .partPaid
  else if dueDate < now then .overdue
  else .pending

/-- Invoice statuses that still accept allocations (spec §4.3 step 3:
status ∈ \x7bpending, overdue, partial\x7d). -/
def isOutstanding : PaymentStatus → Bool
  | .pending => true
  | .overdue => true
  | .partPaid => true
  | .paid => false

/-- Modelled from the spec: §4.2 `recomputeStatus(invoiceId)` — rewrites the
status of the invoice with the given id from its allocation sum; the billing
code is not in the repository. -/
def recomputeStatus (now : Int) (iid : Nat) (s : St) : St :=
  { s with invoices := s.invoices.map (fun i =>
      if i.id == iid then
        { i with status := invoiceStatusOf (paidSum s iid) i.amount i.dueDate now }
      else i) }

/-- Recompute the status of every invoice in `ids` (spec §4.3 step 5: "For
every Invoice touched, invoke recomputeStatus"). -/
def recomputeAll (now : Int) (ids : List Nat) (s : St) : St :=
  ids.foldl (fun st iid => recomputeStatus now iid st) s

/-- Insert an invoice into a list that is sorted by due date, keeping it
sorted. -/
def insertByDue (i : Invoice) : List Invoice → List Invoice
  | [] => [i]
  | j :: rest => if i.dueDate ≤ j.dueDate then i :: j :: rest else j :: insertByDue i rest

/-- Insertion sort by due date (spec §4.3 step 3: invoices ordered by
dueDate ascending). -/
def sortByDue (l : List Invoice) : List Invoice := l.foldr insertByDue []

/-- The tenant's outstanding invoices ordered by dueDate ascending
(spec §4.3 step 3). -/
def sortedOutstanding (s : St) (tid : Nat) : List Invoice :=
  sortByDue (s.invoices.filter (fun i => i.tenantId == tid && isOutstanding i.status))

/-- Modelled from the spec: §4.3 step 4 — greedy allocation of a payment
amount over `(invoiceId, amount still owed)` pairs, oldest first: fully
settle the head, carry the remainder, stop when the amount is exhausted.
The reconciliation code is not in the repository. -/
def allocate (remaining : Int) : List (Nat × Int) → List (Nat × Int)
  | [] => []
  | (iid, owed) :: rest =>
      if remaining ≤ 0 then []
      else (iid, min owed remaining) :: allocate (remaining - min owed remaining) rest

/-- The `(invoiceId, amount still owed)` view of the tenant's outstanding
invoices, oldest due date first (spec §4.3 steps 3-4). -/
def outstandingOwed (s : St) (tid : Nat) : List (Nat × Int) :=
  (sortedOutstanding s tid).map (fun i => (i.id, i.amount - paidSum s i.id))

/-- The greedy allocation produced for a payment of `amount` (spec §4.3
step 4). -/
def allocsOf (s : St) (tid : Nat) (amount : Int) : List (Nat × Int) :=
  allocate amount (outstandingOwed s tid)

/-- The Payment row created by `recordPayment` (spec §4.3 steps 2 and 5: the
Payment's own status is "paid" once its amount has been fully allocated,
"partial" otherwise). -/
def paymentOf (now : Int) (tid : Nat) (amount : Int) (method : String)
    (gtid : Option String) (s : St) : Payment :=
  { id := s.nextId
    tenantId := tid
    amount := amount
    currencySymbol := "KSh"
    paymentDate := now
    dueDate := now
    status := if ((allocsOf s tid amount).map (fun a => a.2)).sum == amount
              then .paid else .partPaid
    paymentMethod := method
    mpesaTransactionId := gtid
    paymentReference := none
    notes := none
    receivedById := none
    createdAt := now }

/-- Link the named gateway transaction to the new payment when it is not
linked yet (spec §4.3 step 2). -/
def linkGateway : Option String → Nat → List MpesaTransaction → List MpesaTransaction
  | some g, pid, l => l.map (fun tx =>
      if tx.transactionId == g && tx.paymentId.isNone then
        { tx with paymentId := some pid }
      else tx)
  | none, _, l => l

/-- The store after `recordPayment` creates and allocates a payment: append
the Payment row and its allocations, link the gateway transaction, then
recompute every touched invoice (spec §4.3 steps 2-5). -/
def postState (now : Int) (tid : Nat) (amount : Int) (method : String)
    (gtid : Option String) (s : St) : St :=
  recomputeAll now ((allocsOf s tid amount).map (fun a => a.1))
    { s with
      payments := s.payments ++ [paymentOf now tid amount method gtid s]
      allocations := s.allocations
        ++ (allocsOf s tid amount).map (fun a => ⟨s.nextId, a.1, a.2⟩)
      mpesa := linkGateway gtid s.nextId s.mpesa
      nextId := s.nextId + 1 }

/-- Modelled from the spec: §4.3 steps 2-5 — create the Payment row, link
the gateway transaction when one is named, allocate the amount oldest-first
over the tenant's outstanding invoices, record the allocations, recompute
every touched invoice, and set the Payment's own status from allocation
completeness.  The reconciliation code is not in the repository. -/
def createAndAllocate (now : Int) (tid : Nat) (amount : Int) (method : String)
    (gtid : Option String) (s : St) : Payment × St :=
  (paymentOf now tid amount method gtid s, postState now tid amount method gtid s)

/-- Modelled from the spec: §4.3 step 1 — when a gateway transaction id is
named and that transaction is already linked to a Payment, the existing
Payment is the replay result.  The reconciliation code is not in the
repository. -/
def replayPayment (s : St) (gtid : Option String) : Option Payment := do
  let g ← gtid
  let tx ← s.mpesa.find? (fun m => m.transactionId == g)
  let pid ← tx.paymentId
  s.payments.find? (fun p => p.id == pid)

/-- Modelled from the spec: §4.3 `recordPayment(tenantId, amount, method,
gatewayTransactionId?) → Payment`.  Failure modes per §4.3: ValidationError
if amount ≤ 0, NotFoundError if the tenant is absent; step 1: a gateway
transaction already linked to a Payment replays idempotently.  The
reconciliation code is not in the repository. -/
def recordPayment (now : Int) (tid : Nat) (amount : Int) (method : String)
    (gtid : Option String) (s : St) : Except Err (Payment × St) :=
  if amount ≤ 0 then .error .validationError
  else if (s.tenants.find? (fun t => t.id == tid)).isNone then .error .notFoundError
  else
    match replayPayment s gtid with
    | some p => .ok (p, s)
    | none => .ok (createAndAllocate now tid amount method gtid s)

/-- Modelled from the spec: §4.2 `generateInvoice(tenantId, periodStart,
periodEnd, amount) → Invoice`, idempotent per `(tenantId, periodStart)`;
dueDate is the period end, status starts at the column default `'pending'`
(src/scheme.ts line 126).  The billing code is not in the repository. -/
def generateInvoice (now : Int) (tid : Nat) (periodStart periodEnd amount : Int)
    (s : St) : Invoice × St :=
  match s.invoices.find? (fun i => i.tenantId == tid && i.periodStart == periodStart) with
  | some i => (i, s)
  | none =>
      let inv : Invoice :=
        { id := s.nextId
          tenantId := tid
          amount := amount
          issueDate := now
          dueDate := periodEnd
          status := .pending
          notes := none
          createdAt := now
          periodStart := periodStart }
      (inv, { s with invoices := s.invoices ++ [inv], nextId := s.nextId + 1 })

/-- Modelled from the spec: §4.1 `createLease` — ValidationError on an
inverted date range, non-positive rent or negative deposit (§3 data-model
bounds), ConflictError when an active Tenant already occupies the target
(Property, Unit) pair (§3 invariant; this implies the §4.1 overlapping-range
case), else insert through the tenants insert schema with `isActive` left to
its column default.  The lease code is not in the repository; Unit status
flipping is out of the embedded store. -/
def createLease (now : Int) (userId propertyId : Nat) (unitId : Option Nat)
    (leaseStart leaseEnd rentAmount securityDeposit : Int) (s : St) :
    Except Err (Tenant × St) :=
  if leaseEnd ≤ leaseStart ∨ rentAmount ≤ 0 ∨ securityDeposit < 0 then
    .error .validationError
  else if s.tenants.any (fun t =>
      t.isActive && t.propertyId == some propertyId && t.unitId == unitId) then
    .error .conflictError
  else
    let t := resolveInsertTenant s.nextId now
      { userId := userId
        propertyId := some propertyId
        unitId := unitId
        leaseStart := leaseStart
        leaseEnd := leaseEnd
        rentAmount := rentAmount
        securityDeposit := securityDeposit
        isActive := none }
    .ok (t, { s with tenants := s.tenants ++ [t], nextId := s.nextId + 1 })

/-- Modelled from the spec: §4.1 `terminateLease(tenantId, effectiveDate)`
sets isActive = false; NotFoundError if absent or already inactive.  The
lease code is not in the repository. -/
def terminateLease (_now : Int) (tid : Nat) (s : St) : Except Err St :=
  match s.tenants.find? (fun t => t.id == tid) with
  | none => .error .notFoundError
  | some t =>
      if t.isActive then
        .ok { s with tenants := s.tenants.map (fun t2 =>
          if t2.id == tid then { t2 with isActive := false } else t2) }
      else .error .notFoundError

/-- Modelled from the spec: §4.4 — the allowed maintenance transitions:
pending → in_progress → completed, or pending/in_progress → canceled.  The
workflow code is not in the repository. -/
def allowedTransition : MaintenanceStatus → MaintenanceStatus → Bool
  | .pending, .in_progress => true
  | .in_progress, .completed => true
  | .pending, .canceled => true
  | .in_progress, .canceled => true
  | _, _ => false

/-- Modelled from the spec: §4.4 — apply a maintenance transition;
InvalidTransitionError on a backward or skip-forward move, `completedAt`
written on entry to completed.  The workflow code is not in the
repository. -/
def transitionMaintenance (now : Int) (rid : Nat) (target : MaintenanceStatus)
    (s : St) : Except Err St :=
  match s.maintenance.find? (fun m => m.id == rid) with
  | none => .error .notFoundError
  | some r =>
      if allowedTransition r.status target then
        .ok { s with maintenance := s.maintenance.map (fun m =>
          if m.id == rid && allowedTransition m.status target then
            { m with
              status := target
              completedAt := if target == .completed then some now else m.completedAt }
          else m) }
      else .error .invalidTransitionError

/-- Create a maintenance request through the public insert schema
(src/scheme.ts line 153). -/
def createMaintenance (now : Int) (ins : InsertMaintenanceRequest) (s : St) :
    MaintenanceRequest × St :=
  let r := resolveInsertMaintenanceRequest s.nextId now ins
  (r, { s with maintenance := s.maintenance ++ [r], nextId := s.nextId + 1 })

/-- An inbound gateway event (spec §6: transactionId, transactionType,
phoneNumber, amount, reference?, status, responseCode?, transactionDate). -/
structure GatewayEvent where
  transactionId : String
  transactionType : MpesaTransactionType
  phoneNumber : String
  amount : Int
  reference : Option String
  status : String
  responseCode : Option String
  transactionDate : Int
deriving DecidableEq, Repr

/-- Modelled from the spec: §6 says the event's status may "indicate
failure"; the success literal is fixed as `"success"` here since the gateway
code is not in the repository. -/
def gatewayEventFailed (e : GatewayEvent) : Bool := e.status != "success"

/-- Build the stored GatewayTransaction row for an inbound event. -/
def mkMpesaFromEvent (id : Nat) (now : Int) (e : GatewayEvent) : MpesaTransaction :=
  { id := id
    transactionId := e.transactionId
    transactionType := e.transactionType
    phoneNumber := e.phoneNumber
    amount := e.amount
    reference := e.reference
    description := none
    paymentId := none
    status := e.status
    responseCode := e.responseCode
    responseDescription := none
    transactionDate := e.transactionDate
    createdAt := now }

/-- Store the GatewayTransaction row for an inbound event unless a row with
its transaction id already exists (the `transaction_id` column is unique,
src/scheme.ts line 88). -/
def insertEventTx (now : Int) (e : GatewayEvent) (s : St) : St :=
  if s.mpesa.any (fun tx => tx.transactionId == e.transactionId) then s
  else { s with mpesa := s.mpesa ++ [mkMpesaFromEvent s.nextId now e]
                nextId := s.nextId + 1 }

/-- Modelled from the spec: §6 `ingestGatewayEvent(event) → Payment|null` —
null on a failed event; otherwise record the GatewayTransaction when it is
new and run `recordPayment` with the event's transaction id (replay-safe per
§4.3 step 1); a rejected ingestion is dropped, leaving the store untouched.
Tenant resolution from the event is outside the schema and is taken as an
explicit argument.  The gateway code is not in the repository. -/
def ingestGatewayEvent (now : Int) (tid : Nat) (e : GatewayEvent) (s : St) :
    Option Payment × St :=
  if gatewayEventFailed e then (none, s)
  else
    match recordPayment now tid (e.amount) "mpesa" (some e.transactionId)
        (insertEventTx now e s) with
    | .ok (p, s2) => (some p, s2)
    | .error _ => (none, s)

/-- The mutating operations of the core (spec §5 lists them: lease
creation/termination, invoice generation, payment recording, status
recomputation, gateway ingestion, maintenance transitions). -/
inductive Op
  | createLease (now : Int) (userId propertyId : Nat) (unitId : Option Nat)
      (leaseStart leaseEnd rentAmount securityDeposit : Int)
  | terminateLease (now : Int) (tenantId : Nat)
  | generateInvoice (now : Int) (tenantId : Nat) (periodStart periodEnd amount : Int)
  | recordPayment (now : Int) (tenantId : Nat) (amount : Int) (method : String)
      (gatewayTransactionId : Option String)
  | recomputeStatus (now : Int) (invoiceId : Nat)
  | ingestGatewayEvent (now : Int) (tenantId : Nat) (event : GatewayEvent)
  | createMaintenance (now : Int) (ins : InsertMaintenanceRequest)
  | transitionMaintenance (now : Int) (requestId : Nat) (target : MaintenanceStatus)

/-- Run one operation against the store; a failing operation leaves the
store untouched (spec §7: transactions are all-or-nothing). -/
def applyOp (op : Op) (s : St) : St :=
  match op with
  | .createLease now u pr un ls le ra sd =>
      match createLease now u pr un ls le ra sd s with
      | .ok r => r.2
      | .error _ => s
  | .terminateLease now tid =>
      match terminateLease now tid s with
      | .ok s2 => s2
      | .error _ => s
  | .generateInvoice now tid ps pe a => (generateInvoice now tid ps pe a s).2
  | .recordPayment now tid a m g =>
      match recordPayment now tid a m g s with
      | .ok r => r.2
      | .error _ => s
  | .recomputeStatus now iid => recomputeStatus now iid s
  | .ingestGatewayEvent now tid e => (ingestGatewayEvent now tid e s).2
  | .createMaintenance now ins => (createMaintenance now ins s).2
  | .transitionMaintenance now rid tgt =>
      match transitionMaintenance now rid tgt s with
      | .ok s2 => s2
      | .error _ => s

/-- Operations that may rewrite the status of an existing invoice: only the
reconciliation and recomputation paths (spec §4.2: the recomputation is the
single authority for Invoice.status). -/
def writesInvoiceStatus : Op → Bool
  | .recordPayment _ _ _ _ _ => true
  | .recomputeStatus _ _ => true
  | .ingestGatewayEvent _ _ _ => true
  | _ => false

/-- States reachable from the empty store by running operations. -/
inductive Reachable : St → Prop
  | empty : Reachable St.empty
  | step (s : St) (op : Op) : Reachable s → Reachable (applyOp op s)

/-- Number of active tenants on one (Property, Unit) pair. -/
def countActive (s : St) (pid uid : Option Nat) : Nat :=
  (s.tenants.filter (fun t => t.isActive && t.propertyId == pid && t.unitId == uid)).length

/-- The reachable-state invariant backing the lease claims: at most one
active tenant per (Property, Unit) pair, and every stored tenant satisfies
the §3 data-model bounds. -/
def StateInv (s : St) : Prop :=
  (∀ pid uid : Option Nat, countActive s pid uid ≤ 1) ∧
  (∀ t ∈ s.tenants, t.leaseStart < t.leaseEnd ∧ 0 < t.rentAmount ∧ 0 ≤ t.securityDeposit)

/-- Structural sanity of a store: serial ids already issued are below the
counter, and every gateway link points at an existing payment. -/
def stOk (s : St) : Bool :=
  s.payments.all (fun p => p.id < s.nextId) &&
  s.invoices.all (fun i => i.id < s.nextId) &&
  s.mpesa.all (fun tx =>
    tx.paymentId.all (fun pid => s.payments.any (fun p => p.id == pid)))

/-- Amount of a payment already assigned to invoices. -/
def allocatedToPayment (s : St) (pid : Nat) : Int :=
  ((s.allocations.filter (fun a => a.paymentId == pid)).map (fun a => a.amount)).sum

/-- Unapplied tenant credit (spec glossary): payment totals minus the
amounts allocated from them. -/
def tenantCredit (s : St) (tid : Nat) : Int :=
  ((s.payments.filter (fun p => p.tenantId == tid)).map
    (fun p => p.amount - allocatedToPayment s p.id)).sum

/-! Helper lemmas. -/

@[simp] lemma recomputeStatus_tenants (now : Int) (iid : Nat) (s : St) :
    (recomputeStatus now iid s).tenants = s.tenants := rfl

@[simp] lemma recomputeStatus_payments (now : Int) (iid : Nat) (s : St) :
    (recomputeStatus now iid s).payments = s.payments := rfl

@[simp] lemma recomputeStatus_allocations (now : Int) (iid : Nat) (s : St) :
    (recomputeStatus now iid s).allocations = s.allocations := rfl

@[simp] lemma recomputeStatus_mpesa (now : Int) (iid : Nat) (s : St) :
    (recomputeStatus now iid s).mpesa = s.mpesa := rfl

@[simp] lemma recomputeStatus_maintenance (now : Int) (iid : Nat) (s : St) :
    (recomputeStatus now iid s).maintenance = s.maintenance := rfl

@[simp] lemma recomputeStatus_nextId (now : Int) (iid : Nat) (s : St) :
    (recomputeStatus now iid s).nextId = s.nextId := rfl

@[simp] lemma paidSum_recomputeStatus (now : Int) (iid j : Nat) (s : St) :
    paidSum (recomputeStatus now iid s) j = paidSum s j := rfl

@[simp] lemma recomputeAll_tenants (now : Int) (ids : List Nat) (s : St) :
    (recomputeAll now ids s).tenants = s.tenants := by
  induction ids generalizing s with
  | nil => rfl
  | cons iid ids ih => simpa [recomputeAll] using ih (recomputeStatus now iid s)

@[simp] lemma recomputeAll_payments (now : Int) (ids : List Nat) (s : St) :
    (recomputeAll now ids s).payments = s.payments := by
  induction ids generalizing s with
  | nil => rfl
  | cons iid ids ih => simpa [recomputeAll] using ih (recomputeStatus now iid s)

@[simp] lemma recomputeAll_allocations (now : Int) (ids : List Nat) (s : St) :
    (recomputeAll now ids s).allocations = s.allocations := by
  induction ids generalizing s with
  | nil => rfl
  | cons iid ids ih => simpa [recomputeAll] using ih (recomputeStatus now iid s)

@[simp] lemma recomputeAll_mpesa (now : Int) (ids : List Nat) (s : St) :
    (recomputeAll now ids s).mpesa = s.mpesa := by
  induction ids generalizing s with
  | nil => rfl
  | cons iid ids ih => simpa [recomputeAll] using ih (recomputeStatus now iid s)

@[simp] lemma recomputeAll_maintenance (now : Int) (ids : List Nat) (s : St) :
    (recomputeAll now ids s).maintenance = s.maintenance := by
  induction ids generalizing s with
  | nil => rfl
  | cons iid ids ih => simpa [recomputeAll] using ih (recomputeStatus now iid s)

@[simp] lemma recomputeAll_nextId (now : Int) (ids : List Nat) (s : St) :
    (recomputeAll now ids s).nextId = s.nextId := by
  induction ids generalizing s with
  | nil => rfl
  | cons iid ids ih => simpa [recomputeAll] using ih (recomputeStatus now iid s)

@[simp] lemma paidSum_recomputeAll (now : Int) (ids : List Nat) (j : Nat) (s : St) :
    paidSum (recomputeAll now ids s) j = paidSum s j := by
  simp [paidSum]

@[simp] lemma recomputeStatus_invoices (now : Int) (iid : Nat) (s : St) :
    (recomputeStatus now iid s).invoices = s.invoices.map (fun i =>
      if i.id == iid then
        { i with status := invoiceStatusOf (paidSum s iid) i.amount i.dueDate now }
      else i) := rfl

lemma recomputeAll_invoices (now : Int) (ids : List Nat) (s : St) :
    (recomputeAll now ids s).invoices = s.invoices.map (fun i =>
      if i.id ∈ ids then
        { i with status := invoiceStatusOf (paidSum s i.id) i.amount i.dueDate now }
      else i) := by
  induction ids generalizing s with
  | nil => simp [recomputeAll]
  | cons iid ids ih =>
    have step : recomputeAll now (iid :: ids) s
        = recomputeAll now ids (recomputeStatus now iid s) := rfl
    rw [step, ih]
    simp only [paidSum_recomputeStatus]
    rw [recomputeStatus_invoices, List.map_map]
    apply List.map_congr_left
    intro i _
    by_cases h1 : i.id = iid
    · by_cases h2 : i.id ∈ ids
      · have h2i : iid ∈ ids := h1 ▸ h2
        simp [Function.comp, h1, h2, h2i, List.mem_cons]
      · have h2i : iid ∉ ids := h1 ▸ h2
        simp [Function.comp, h1, h2, h2i, List.mem_cons]
    · by_cases h2 : i.id ∈ ids <;>
        simp [Function.comp, h1, h2, List.mem_cons, beq_iff_eq]

lemma paidSum_eq_of_allocations {s1 s : St} {extra : List Allocation} (j : Nat)
    (hallocs : s1.allocations = s.allocations ++ extra)
    (h : ∀ a ∈ extra, a.invoiceId ≠ j) :
    paidSum s1 j = paidSum s j := by
  have hnil : extra.filter (fun a => a.invoiceId == j) = [] :=
    List.filter_eq_nil_iff.mpr (by
      intro a ha
      simp [beq_iff_eq]
      exact h a ha)
  simp [paidSum, hallocs, List.filter_append, hnil]

lemma find?_map_eq {α : Type} (f : α → α) (p : α → Bool) (l : List α)
    (h : ∀ x, p (f x) = p x) : (l.map f).find? p = (l.find? p).map f := by
  induction l with
  | nil => rfl
  | cons a l ih =>
    cases hp : p a <;> simp [List.find?_cons, h a, hp, ih]

lemma find?_of_any_eq_false {α : Type} (p : α → Bool) (l : List α)
    (h : l.any p = false) : l.find? p = none := by
  simp only [List.find?_eq_none]
  simp only [List.any_eq_false] at h
  exact h

lemma filter_map_length_le {α : Type} (f : α → α) (p : α → Bool) (l : List α)
    (h : ∀ x, p (f x) = true → p x = true) :
    ((l.map f).filter p).length ≤ (l.filter p).length := by
  induction l with
  | nil => simp
  | cons a l ih =>
    simp only [List.map_cons, List.filter_cons]
    cases hfa : p (f a)
    · cases hpa : p a
      · simpa using ih
      · simpa using Nat.le_succ_of_le ih
    · have := h a hfa
      simp [this]
      exact ih

lemma insertByDue_perm (i : Invoice) (l : List Invoice) :
    List.Perm (insertByDue i l) (i :: l) := by
  induction l with
  | nil => exact List.Perm.refl _
  | cons j rest ih =>
    by_cases h : i.dueDate ≤ j.dueDate
    · simp [insertByDue, h]
    · simp only [insertByDue, if_neg h]
      exact (ih.cons j).trans (List.Perm.swap i j rest)

lemma sortByDue_perm (l : List Invoice) : List.Perm (sortByDue l) l := by
  induction l with
  | nil => exact List.Perm.refl _
  | cons i rest ih =>
    exact (insertByDue_perm i (sortByDue rest)).trans (ih.cons i)

lemma insertByDue_pairwise (i : Invoice) (l : List Invoice)
    (h : l.Pairwise (fun a b => a.dueDate ≤ b.dueDate)) :
    (insertByDue i l).Pairwise (fun a b => a.dueDate ≤ b.dueDate) := by
  induction l with
  | nil => simp [insertByDue]
  | cons j rest ih =>
    rcases List.pairwise_cons.mp h with ⟨hj, hrest⟩
    by_cases hle : i.dueDate ≤ j.dueDate
    · simp only [insertByDue, if_pos hle]
      refine List.pairwise_cons.mpr ⟨?_, h⟩
      intro b hb
      rcases List.mem_cons.mp hb with hb | hb
      · exact hb ▸ hle
      · exact hle.trans (hj b hb)
    · simp only [insertByDue, if_neg hle]
      refine List.pairwise_cons.mpr ⟨?_, ih hrest⟩
      intro b hb
      rcases List.mem_cons.mp ((insertByDue_perm i rest).mem_iff.mp hb) with hb | hb
      · subst hb
        omega
      · exact hj b hb

lemma sortByDue_pairwise (l : List Invoice) :
    (sortByDue l).Pairwise (fun a b => a.dueDate ≤ b.dueDate) := by
  induction l with
  | nil => simp [sortByDue]
  | cons i rest ih => exact insertByDue_pairwise i (sortByDue rest) ih

lemma allocate_zip_fst (A : Int) (l : List (Nat × Int)) :
    ∀ pr ∈ (allocate A l).zip l, pr.1.1 = pr.2.1 := by
  induction l generalizing A with
  | nil => simp [allocate]
  | cons hd rest ih =>
    obtain ⟨iid, owed⟩ := hd
    by_cases hA : A ≤ 0
    · simp [allocate, hA]
    · simp only [allocate, if_neg hA, List.zip_cons_cons]
      intro pr hpr
      rcases List.mem_cons.mp hpr with h | h
      · subst h
        rfl
      · exact ih (A - min owed A) pr h

lemma allocate_length_ne_nil {A : Int} {l : List (Nat × Int)}
    (h : allocate A l ≠ []) : ¬ A ≤ 0 ∧ l ≠ [] := by
  constructor
  · intro hA
    apply h
    cases l with
    | nil => rfl
    | cons hd rest =>
        obtain ⟨iid, owed⟩ := hd
        simp [allocate, hA]
  · intro hl
    subst hl
    exact h rfl

lemma allocate_dropLast_settles (A : Int) (l : List (Nat × Int)) :
    ∀ pr ∈ ((allocate A l).dropLast).zip l, pr.1.2 = pr.2.2 := by
  induction l generalizing A with
  | nil => simp [allocate]
  | cons hd rest ih =>
    obtain ⟨iid, owed⟩ := hd
    by_cases hA : A ≤ 0
    · simp [allocate, hA]
    · simp only [allocate, if_neg hA]
      cases hrest : allocate (A - min owed A) rest with
      | nil => simp
      | cons b bs =>
        have hstep : ((iid, min owed A) :: b :: bs).dropLast
            = (iid, min owed A) :: (b :: bs).dropLast := rfl
        rw [hstep]
        intro pr hpr
        rcases List.mem_cons.mp (by simpa [List.zip_cons_cons] using hpr) with h | h
        · subst h
          have hne : allocate (A - min owed A) rest ≠ [] := by
            rw [hrest]
            exact List.cons_ne_nil b bs
          rcases allocate_length_ne_nil hne with ⟨hA2, _⟩
          simp only
          omega
        · rw [← hrest] at h
          exact ih (A - min owed A) pr h

lemma allocate_sum (A : Int) (l : List (Nat × Int)) (hA : 0 ≤ A)
    (hpos : ∀ p ∈ l, 0 ≤ p.2) :
    ((allocate A l).map (fun a => a.2)).sum = min A ((l.map (fun a => a.2)).sum) := by
  induction l generalizing A with
  | nil =>
    simp [allocate]
    omega
  | cons hd rest ih =>
    obtain ⟨iid, owed⟩ := hd
    have howed : 0 ≤ owed := hpos (iid, owed) (List.mem_cons_self _ _)
    have hrest : ∀ p ∈ rest, 0 ≤ p.2 := fun p hp => hpos p (List.mem_cons_of_mem _ hp)
    have hsum : 0 ≤ (rest.map (fun a => a.2)).sum := by
      apply List.sum_nonneg
      intro x hx
      rcases List.mem_map.mp hx with ⟨p, hp, hpx⟩
      exact hpx ▸ hrest p hp
    by_cases h0 : A ≤ 0
    · have hz : A = 0 := le_antisymm h0 hA
      subst hz
      simp [allocate]
      omega
    · simp only [allocate, if_neg h0, List.map_cons, List.sum_cons,
        ih (A - min owed A) (by omega) hrest]
      omega

lemma generateInvoice_snd_tenants (now : Int) (tid : Nat) (ps pe a : Int) (s : St) :
    ((generateInvoice now tid ps pe a s).2).tenants = s.tenants := by
  unfold generateInvoice
  cases s.invoices.find? (fun i => i.tenantId == tid && i.periodStart == ps) <;> rfl

lemma generateInvoice_snd_maintenance (now : Int) (tid : Nat) (ps pe a : Int) (s : St) :
    ((generateInvoice now tid ps pe a s).2).maintenance = s.maintenance := by
  unfold generateInvoice
  cases s.invoices.find? (fun i => i.tenantId == tid && i.periodStart == ps) <;> rfl

lemma generateInvoice_snd_invoices (now : Int) (tid : Nat) (ps pe a : Int) (s : St) :
    ∃ tl, ((generateInvoice now tid ps pe a s).2).invoices = s.invoices ++ tl := by
  unfold generateInvoice
  cases s.invoices.find? (fun i => i.tenantId == tid && i.periodStart == ps) with
  | none => exact ⟨_, rfl⟩
  | some i => exact ⟨[], (List.append_nil _).symm⟩

lemma postState_tenants (now : Int) (tid : Nat) (a : Int) (m : String)
    (g : Option String) (s : St) :
    (postState now tid a m g s).tenants = s.tenants := by
  simp [postState]

lemma postState_maintenance (now : Int) (tid : Nat) (a : Int) (m : String)
    (g : Option String) (s : St) :
    (postState now tid a m g s).maintenance = s.maintenance := by
  simp [postState]

lemma postState_payments (now : Int) (tid : Nat) (a : Int) (m : String)
    (g : Option String) (s : St) :
    (postState now tid a m g s).payments
      = s.payments ++ [paymentOf now tid a m g s] := by
  simp [postState]

lemma postState_mpesa (now : Int) (tid : Nat) (a : Int) (m : String)
    (g : Option String) (s : St) :
    (postState now tid a m g s).mpesa = linkGateway g s.nextId s.mpesa := by
  simp [postState]

lemma postState_nextId (now : Int) (tid : Nat) (a : Int) (m : String)
    (g : Option String) (s : St) :
    (postState now tid a m g s).nextId = s.nextId + 1 := by
  simp [postState]

lemma createAndAllocate_snd_tenants (now : Int) (tid : Nat) (a : Int) (m : String)
    (g : Option String) (s : St) :
    ((createAndAllocate now tid a m g s).2).tenants = s.tenants := by
  simpa [createAndAllocate] using postState_tenants now tid a m g s

lemma createAndAllocate_snd_maintenance (now : Int) (tid : Nat) (a : Int) (m : String)
    (g : Option String) (s : St) :
    ((createAndAllocate now tid a m g s).2).maintenance = s.maintenance := by
  simpa [createAndAllocate] using postState_maintenance now tid a m g s

lemma recordPayment_ok_tenants {now : Int} {tid : Nat} {a : Int} {m : String}
    {g : Option String} {s : St} {p : Payment} {s' : St}
    (h : recordPayment now tid a m g s = .ok (p, s')) : s'.tenants = s.tenants := by
  unfold recordPayment at h
  split at h
  · exact absurd h (by simp)
  · split at h
    · exact absurd h (by simp)
    · split at h
      · cases h
        rfl
      · cases h
        exact createAndAllocate_snd_tenants _ _ _ _ _ _

lemma recordPayment_ok_maintenance {now : Int} {tid : Nat} {a : Int} {m : String}
    {g : Option String} {s : St} {p : Payment} {s' : St}
    (h : recordPayment now tid a m g s = .ok (p, s')) : s'.maintenance = s.maintenance := by
  unfold recordPayment at h
  split at h
  · exact absurd h (by simp)
  · split at h
    · exact absurd h (by simp)
    · split at h
      · cases h
        rfl
      · cases h
        exact createAndAllocate_snd_maintenance _ _ _ _ _ _

lemma insertEventTx_tenants (now : Int) (e : GatewayEvent) (s : St) :
    (insertEventTx now e s).tenants = s.tenants := by
  unfold insertEventTx
  split <;> rfl

lemma insertEventTx_maintenance (now : Int) (e : GatewayEvent) (s : St) :
    (insertEventTx now e s).maintenance = s.maintenance := by
  unfold insertEventTx
  split <;> rfl

lemma insertEventTx_invoices (now : Int) (e : GatewayEvent) (s : St) :
    (insertEventTx now e s).invoices = s.invoices := by
  unfold insertEventTx
  split <;> rfl

lemma insertEventTx_payments (now : Int) (e : GatewayEvent) (s : St) :
    (insertEventTx now e s).payments = s.payments := by
  unfold insertEventTx
  split <;> rfl

lemma ingest_snd_tenants (now : Int) (tid : Nat) (e : GatewayEvent) (s : St) :
    ((ingestGatewayEvent now tid e s).2).tenants = s.tenants := by
  unfold ingestGatewayEvent
  split
  · rfl
  · cases hrp : recordPayment now tid (e.amount) "mpesa" (some e.transactionId)
      (insertEventTx now e s) with
    | ok r =>
        obtain ⟨p, s2⟩ := r
        simpa [insertEventTx_tenants] using recordPayment_ok_tenants hrp
    | error err => rfl

lemma ingest_snd_maintenance (now : Int) (tid : Nat) (e : GatewayEvent) (s : St) :
    ((ingestGatewayEvent now tid e s).2).maintenance = s.maintenance := by
  unfold ingestGatewayEvent
  split
  · rfl
  · cases hrp : recordPayment now tid (e.amount) "mpesa" (some e.transactionId)
      (insertEventTx now e s) with
    | ok r =>
        obtain ⟨p, s2⟩ := r
        simpa [insertEventTx_maintenance] using recordPayment_ok_maintenance hrp
    | error err => rfl

lemma transitionMaintenance_ok_tenants {now : Int} {rid : Nat}
    {tgt : MaintenanceStatus} {s s' : St}
    (h : transitionMaintenance now rid tgt s = .ok s') : s'.tenants = s.tenants := by
  unfold transitionMaintenance at h
  split at h
  · exact absurd h (by simp)
  · split at h
    · cases h
      rfl
    · exact absurd h (by simp)

lemma terminateLease_ok_tenants {now : Int} {tid : Nat} {s s' : St}
    (h : terminateLease now tid s = .ok s') :
    s'.tenants = s.tenants.map (fun t2 =>
      if t2.id == tid then { t2 with isActive := false } else t2) := by
  unfold terminateLease at h
  split at h
  · exact absurd h (by simp)
  · split at h
    · cases h
      rfl
    · exact absurd h (by simp)

lemma stateInv_of_tenants_eq {s s' : St} (h : s'.tenants = s.tenants)
    (hs : StateInv s) : StateInv s' := by
  constructor
  · intro pid uid
    unfold countActive
    rw [h]
    exact hs.1 pid uid
  · intro t ht
    exact hs.2 t (h ▸ ht)

lemma length_filter_append_single {α : Type} (p : α → Bool) (l : List α) (x : α) :
    ((l ++ [x]).filter p).length
      = (l.filter p).length + (if p x then 1 else 0) := by
  cases hp : p x <;> simp [List.filter_append, List.filter, hp]

lemma stateInv_empty : StateInv St.empty := by
  constructor
  · intro pid uid
    simp [countActive, St.empty]
  · intro t ht
    simp [St.empty] at ht

lemma createLease_stateInv (now : Int) (u pr : Nat) (un : Option Nat)
    (ls le ra sd : Int) (s : St) (h : StateInv s) :
    StateInv (applyOp (.createLease now u pr un ls le ra sd) s) := by
  simp only [applyOp]
  cases hres : createLease now u pr un ls le ra sd s with
  | error e => exact h
  | ok r =>
    unfold createLease at hres
    split at hres
    · exact absurd hres (by simp)
    · split at hres
      · exact absurd hres (by simp)
      · rename_i hval hocc
        have hany : s.tenants.any (fun t2 =>
            t2.isActive && t2.propertyId == some pr && t2.unitId == un) = false := by
          simpa using hocc
        cases hres
        constructor
        · intro pid uid
          unfold countActive
          simp only
          rw [length_filter_append_single]
          by_cases hp : ((resolveInsertTenant s.nextId now
              { userId := u, propertyId := some pr, unitId := un, leaseStart := ls
                leaseEnd := le, rentAmount := ra, securityDeposit := sd
                isActive := none }).isActive
              && (resolveInsertTenant s.nextId now
              { userId := u, propertyId := some pr, unitId := un, leaseStart := ls
                leaseEnd := le, rentAmount := ra, securityDeposit := sd
                isActive := none }).propertyId == pid
              && (resolveInsertTenant s.nextId now
              { userId := u, propertyId := some pr, unitId := un, leaseStart := ls
                leaseEnd := le, rentAmount := ra, securityDeposit := sd
                isActive := none }).unitId == uid) = true
          · have hp9 := hp
            simp only [resolveInsertTenant] at hp9
            simp at hp9
            obtain ⟨hpid, huid⟩ := hp9
            subst hpid
            subst huid
            have hnil : s.tenants.filter (fun t2 =>
                t2.isActive && t2.propertyId == some pr && t2.unitId == un) = [] :=
              List.filter_eq_nil_iff.mpr (List.any_eq_false.mp hany)
            simp [hp, hnil]
          · have hp' : ((resolveInsertTenant s.nextId now
                { userId := u, propertyId := some pr, unitId := un, leaseStart := ls
                  leaseEnd := le, rentAmount := ra, securityDeposit := sd
                  isActive := none }).isActive
                && (resolveInsertTenant s.nextId now
                { userId := u, propertyId := some pr, unitId := un, leaseStart := ls
                  leaseEnd := le, rentAmount := ra, securityDeposit := sd
                  isActive := none }).propertyId == pid
                && (resolveInsertTenant s.nextId now
                { userId := u, propertyId := some pr, unitId := un, leaseStart := ls
                  leaseEnd := le, rentAmount := ra, securityDeposit := sd
                  isActive := none }).unitId == uid) = false := by
              simpa using hp
            rw [hp']
            simpa using h.1 pid uid
        · intro t ht
          rcases List.mem_append.mp ht with h1 | h1
          · exact h.2 t h1
          · have ht' : t = resolveInsertTenant s.nextId now
                { userId := u, propertyId := some pr, unitId := un, leaseStart := ls
                  leaseEnd := le, rentAmount := ra, securityDeposit := sd
                  isActive := none } := by simpa using h1
            subst ht'
            simp only [resolveInsertTenant]
            refine ⟨?_, ?_, ?_⟩ <;> omega

lemma terminateLease_stateInv (now : Int) (tid : Nat) (s : St) (h : StateInv s) :
    StateInv (applyOp (.terminateLease now tid) s) := by
  simp only [applyOp]
  cases hres : terminateLease now tid s with
  | error e => exact h
  | ok s2 =>
    have ht := terminateLease_ok_tenants hres
    constructor
    · intro pid uid
      unfold countActive
      rw [ht]
      refine le_trans (filter_map_length_le _ _ _ ?_) (h.1 pid uid)
      intro x hx
      by_cases hid : (x.id == tid) = true
      · rw [if_pos hid] at hx
        simp at hx
      · rw [if_neg hid] at hx
        exact hx
    · intro t ht'
      rw [ht] at ht'
      rcases List.mem_map.mp ht' with ⟨x, hx, hfx⟩
      have hold := h.2 x hx
      by_cases hid : (x.id == tid) = true
      · rw [if_pos hid] at hfx
        subst hfx
        exact hold
      · rw [if_neg hid] at hfx
        subst hfx
        exact hold

lemma applyOp_stateInv (op : Op) (s : St) (h : StateInv s) :
    StateInv (applyOp op s) := by
  cases op with
  | createLease now u pr un ls le ra sd => exact createLease_stateInv now u pr un ls le ra sd s h
  | terminateLease now tid => exact terminateLease_stateInv now tid s h
  | generateInvoice now tid ps pe a =>
      exact stateInv_of_tenants_eq (generateInvoice_snd_tenants now tid ps pe a s) h
  | recordPayment now tid a m g =>
      simp only [applyOp]
      cases hres : recordPayment now tid a m g s with
      | error e => exact h
      | ok r =>
          obtain ⟨p, s2⟩ := r
          exact stateInv_of_tenants_eq (recordPayment_ok_tenants hres) h
  | recomputeStatus now iid =>
      exact stateInv_of_tenants_eq (recomputeStatus_tenants now iid s) h
  | ingestGatewayEvent now tid e =>
      exact stateInv_of_tenants_eq (ingest_snd_tenants now tid e s) h
  | createMaintenance now ins => exact stateInv_of_tenants_eq rfl h
  | transitionMaintenance now rid tgt =>
      simp only [applyOp]
      cases hres : transitionMaintenance now rid tgt s with
      | error e => exact h
      | ok s2 => exact stateInv_of_tenants_eq (transitionMaintenance_ok_tenants hres) h

lemma reachable_stateInv {s : St} (h : Reachable s) : StateInv s := by
  induction h with
  | empty => exact stateInv_empty
  | step s op hr ih => exact applyOp_stateInv op s ih

lemma createLease_ok_state {now : Int} {u pr : Nat} {un : Option Nat}
    {ls le ra sd : Int} {s : St} {r : Tenant × St}
    (h : createLease now u pr un ls le ra sd s = .ok r) :
    r.2 = { s with tenants := s.tenants ++ [r.1], nextId := s.nextId + 1 } := by
  unfold createLease at h
  split at h
  · exact absurd h (by simp)
  · split at h
    · exact absurd h (by simp)
    · cases h
      rfl

lemma terminateLease_ok_state {now : Int} {tid : Nat} {s s2 : St}
    (h : terminateLease now tid s = .ok s2) :
    s2 = { s with tenants := s.tenants.map (fun t2 =>
      if t2.id == tid then { t2 with isActive := false } else t2) } := by
  unfold terminateLease at h
  split at h
  · exact absurd h (by simp)
  · split at h
    · cases h
      rfl
    · exact absurd h (by simp)

lemma transitionMaintenance_ok_state {now : Int} {rid : Nat}
    {tgt : MaintenanceStatus} {s s2 : St}
    (h : transitionMaintenance now rid tgt s = .ok s2) :
    s2 = { s with maintenance := s.maintenance.map (fun m =>
      if m.id == rid && allowedTransition m.status tgt then
        { m with
          status := tgt
          completedAt := if tgt == .completed then some now else m.completedAt }
      else m) } := by
  unfold transitionMaintenance at h
  split at h
  · exact absurd h (by simp)
  · split at h
    · cases h
      rfl
    · exact absurd h (by simp)

lemma generateInvoice_found {s : St} {tid : Nat} {ps : Int} {i : Invoice}
    (hf : s.invoices.find? (fun i => i.tenantId == tid && i.periodStart == ps) = some i)
    (now pe a : Int) : generateInvoice now tid ps pe a s = (i, s) := by
  unfold generateInvoice
  rw [hf]

lemma generateInvoice_new {s : St} {tid : Nat} {ps : Int}
    (hf : s.invoices.find? (fun i => i.tenantId == tid && i.periodStart == ps) = none)
    (now pe a : Int) : generateInvoice now tid ps pe a s =
      ({ id := s.nextId, tenantId := tid, amount := a, issueDate := now
         dueDate := pe, status := .pending, notes := none, createdAt := now
         periodStart := ps },
       { s with
         invoices := s.invoices ++
           [{ id := s.nextId, tenantId := tid, amount := a, issueDate := now
              dueDate := pe, status := .pending, notes := none, createdAt := now
              periodStart := ps }]
         nextId := s.nextId + 1 }) := by
  unfold generateInvoice
  rw [hf]

lemma generateInvoice_new_spec {s : St} {tid : Nat} {ps : Int}
    (hf : s.invoices.find? (fun i => i.tenantId == tid && i.periodStart == ps) = none)
    (now pe a : Int) :
    (generateInvoice now tid ps pe a s).1.tenantId = tid ∧
    (generateInvoice now tid ps pe a s).1.periodStart = ps ∧
    ((generateInvoice now tid ps pe a s).2).invoices
      = s.invoices ++ [(generateInvoice now tid ps pe a s).1] := by
  unfold generateInvoice
  rw [hf]
  exact ⟨rfl, rfl, rfl⟩

lemma insertEventTx_any (now : Int) (e : GatewayEvent) (s : St) :
    (insertEventTx now e s).mpesa.any
      (fun tx => tx.transactionId == e.transactionId) = true := by
  unfold insertEventTx
  split
  · assumption
  · simp [List.any_append, mkMpesaFromEvent]

lemma insertEventTx_of_any {now : Int} {e : GatewayEvent} {s : St}
    (h : s.mpesa.any (fun tx => tx.transactionId == e.transactionId) = true) :
    insertEventTx now e s = s := by
  unfold insertEventTx
  rw [if_pos h]

lemma insertEventTx_mem {now : Int} {e : GatewayEvent} {s : St}
    {tx : MpesaTransaction} (h : tx ∈ s.mpesa) :
    tx ∈ (insertEventTx now e s).mpesa := by
  unfold insertEventTx
  split
  · exact h
  · exact List.mem_append_left _ h

lemma insertEventTx_nextId_le (now : Int) (e : GatewayEvent) (s : St) :
    s.nextId ≤ (insertEventTx now e s).nextId := by
  unfold insertEventTx
  split
  · exact le_refl _
  · exact Nat.le_succ _

lemma linkGateway_any (g : String) (pid : Nat) (l : List MpesaTransaction)
    (c : String) :
    (linkGateway (some g) pid l).any (fun tx => tx.transactionId == c)
      = l.any (fun tx => tx.transactionId == c) := by
  unfold linkGateway
  induction l with
  | nil => rfl
  | cons tx l ih =>
    simp only [List.map_cons, List.any_cons, ih]
    congr 1
    split <;> rfl

lemma linkGateway_find? (g : String) (pid : Nat) (l : List MpesaTransaction)
    (c : String) :
    (linkGateway (some g) pid l).find? (fun tx => tx.transactionId == c)
      = (l.find? (fun tx => tx.transactionId == c)).map (fun tx =>
          if tx.transactionId == g && tx.paymentId.isNone then
            { tx with paymentId := some pid }
          else tx) := by
  unfold linkGateway
  apply find?_map_eq
  intro tx
  split <;> rfl

lemma replayPayment_some (s : St) (g : String) :
    replayPayment s (some g)
      = (s.mpesa.find? (fun m => m.transactionId == g)).bind (fun tx =>
          tx.paymentId.bind (fun pid => s.payments.find? (fun p => p.id == pid))) := rfl

lemma stOk_payments {s : St} (h : stOk s = true) :
    ∀ q ∈ s.payments, q.id < s.nextId := by
  have h' : ∀ q ∈ s.payments, q.id < s.nextId := by
    simp only [stOk, Bool.and_eq_true, List.all_eq_true, decide_eq_true_eq] at h
    exact fun q hq => h.1.1 q hq
  exact h'

lemma stOk_links {s : St} (h : stOk s = true) :
    ∀ tx ∈ s.mpesa, ∀ pid, tx.paymentId = some pid →
      s.payments.any (fun p => p.id == pid) = true := by
  simp only [stOk, Bool.and_eq_true, List.all_eq_true] at h
  intro tx htx pid hpid
  have := h.2 tx htx
  rw [hpid] at this
  simpa using this

lemma insertEventTx_links {s : St} (hok : stOk s = true) (now : Int)
    (e : GatewayEvent) :
    ∀ tx ∈ (insertEventTx now e s).mpesa, ∀ pid, tx.paymentId = some pid →
      ((insertEventTx now e s).payments.any (fun q => q.id == pid)) = true := by
  intro tx htx pid hpid
  rw [insertEventTx_payments]
  revert htx
  unfold insertEventTx
  split
  · intro htx
    exact stOk_links hok tx htx pid hpid
  · intro htx
    rcases List.mem_append.mp htx with h1 | h1
    · exact stOk_links hok tx h1 pid hpid
    · have : tx = mkMpesaFromEvent s.nextId now e := by simpa using h1
      subst this
      simp [mkMpesaFromEvent] at hpid

lemma postState_invoices_status (now : Int) (tid : Nat) (a : Int) (m : String)
    (g : Option String) (s : St) :
    ∀ i ∈ (postState now tid a m g s).invoices,
      i.status = invoiceStatusOf (paidSum (postState now tid a m g s) i.id)
        i.amount i.dueDate now
      ∨ (i ∈ s.invoices ∧ paidSum (postState now tid a m g s) i.id = paidSum s i.id) := by
  intro i hi
  have hbase : postState now tid a m g s
      = recomputeAll now ((allocsOf s tid a).map (fun x => x.1))
        { s with
          payments := s.payments ++ [paymentOf now tid a m g s]
          allocations := s.allocations
            ++ (allocsOf s tid a).map (fun x => ⟨s.nextId, x.1, x.2⟩)
          mpesa := linkGateway g s.nextId s.mpesa
          nextId := s.nextId + 1 } := rfl
  rw [hbase, recomputeAll_invoices] at hi
  rcases List.mem_map.mp hi with ⟨j, hj, hfj⟩
  by_cases hmem : j.id ∈ (allocsOf s tid a).map (fun x => x.1)
  · rw [if_pos hmem] at hfj
    subst hfj
    left
    rw [hbase]
    simp only [paidSum_recomputeAll]
  · rw [if_neg hmem] at hfj
    subst hfj
    right
    refine ⟨hj, ?_⟩
    rw [hbase]
    simp only [paidSum_recomputeAll]
    apply paidSum_eq_of_allocations j.id rfl
    intro x hx
    rcases List.mem_map.mp hx with ⟨y, hy, hxy⟩
    subst hxy
    intro hcon
    exact hmem (hcon ▸ List.mem_map.mpr ⟨y, hy, rfl⟩)

lemma recordPayment_ok_cases {now : Int} {tid : Nat} {a : Int} {m : String}
    {g : Option String} {s : St} {p : Payment} {s' : St}
    (h : recordPayment now tid a m g s = .ok (p, s')) :
    ¬ a ≤ 0 ∧ (s.tenants.find? (fun t => t.id == tid)).isNone = false ∧
    ((replayPayment s g = some p ∧ s' = s) ∨
     (replayPayment s g = none ∧ p = paymentOf now tid a m g s ∧
      s' = postState now tid a m g s)) := by
  unfold recordPayment at h
  split at h
  · exact absurd h (by simp)
  · split at h
    · exact absurd h (by simp)
    · rename_i hA hT
      refine ⟨hA, by simpa using hT, ?_⟩
      split at h
      · rename_i p0 hrep
        cases h
        exact Or.inl ⟨hrep, rfl⟩
      · rename_i hrep
        have h2 : (paymentOf now tid a m g s, postState now tid a m g s) = (p, s') := by
          simpa [createAndAllocate] using h
        injection h2 with hp hs
        exact Or.inr ⟨hrep, hp.symm, hs.symm⟩

lemma recordPayment_success {now : Int} {tid : Nat} {a : Int} {m : String}
    {g : Option String} {s : St} (hA : ¬ a ≤ 0)
    (hT : ((s.tenants.find? (fun t => t.id == tid)).isNone) = false) :
    ∃ p s', recordPayment now tid a m g s = .ok (p, s') := by
  unfold recordPayment
  rw [if_neg hA, if_neg (by simp [hT])]
  cases hrep : replayPayment s g with
  | some p0 => exact ⟨p0, s, rfl⟩
  | none => exact ⟨paymentOf now tid a m g s, postState now tid a m g s, rfl⟩

/-! Concrete runs used as witnesses: a lease, invoices, payments, a gateway
event and a maintenance request, all built through the operations. -/

instance {ε α : Type} [DecidableEq ε] [DecidableEq α] : DecidableEq (Except ε α) :=
  fun a b =>
    match a, b with
    | .error e1, .error e2 =>
        if h : e1 = e2 then .isTrue (by subst h; rfl)
        else .isFalse (fun hc => h (by cases hc; rfl))
    | .error _, .ok _ => .isFalse (fun hc => Except.noConfusion hc)
    | .ok _, .error _ => .isFalse (fun hc => Except.noConfusion hc)
    | .ok a1, .ok a2 =>
        if h : a1 = a2 then .isTrue (by subst h; rfl)
        else .isFalse (fun hc => h (by cases hc; rfl))

def dummyPayment : Payment :=
  { id := 0, tenantId := 0, amount := 0, currencySymbol := "", paymentDate := 0
    dueDate := 0, status := .pending, paymentMethod := "", mpesaTransactionId := none
    paymentReference := none, notes := none, receivedById := none, createdAt := 0 }

def exOpLease : Op := .createLease 0 100 10 (some 20) 0 1000 5000 0

def exS1 : St := applyOp exOpLease St.empty

def exTenant1 : Tenant :=
  { id := 1, userId := 100, propertyId := some 10, unitId := some 20
    leaseStart := 0, leaseEnd := 1000, rentAmount := 5000, securityDeposit := 0
    isActive := true, createdAt := 0 }

def exS2 : St := applyOp (.generateInvoice 0 1 10 20 3000) exS1

def exS3 : St := applyOp (.generateInvoice 0 1 0 10 5000) exS2

def exC4res : Except Err (Payment × St) := recordPayment 5 1 6000 "cash" none exS3

def exC4p : Payment :=
  match exC4res with
  | .ok r => r.1
  | .error _ => dummyPayment

def exC4s : St :=
  match exC4res with
  | .ok r => r.2
  | .error _ => St.empty

def exT2 : St := applyOp (.generateInvoice 0 1 0 10 5000) exS1

def exC5res : Except Err (Payment × St) := recordPayment 5 1 7000 "cash" none exT2

def exC5p : Payment :=
  match exC5res with
  | .ok r => r.1
  | .error _ => dummyPayment

def exC5s : St :=
  match exC5res with
  | .ok r => r.2
  | .error _ => St.empty

def exEv : GatewayEvent :=
  { transactionId := "TX1", transactionType := .customer_paybill
    phoneNumber := "0700000000", amount := 7000, reference := none
    status := "success", responseCode := none, transactionDate := 5 }

def exC2res : Option Payment × St := ingestGatewayEvent 5 1 exEv exT2

def exC2p : Payment := exC2res.1.getD dummyPayment

def exC2s : St := exC2res.2

def exIns : InsertMaintenanceRequest :=
  { tenantId := 1, propertyId := 10, unitId := some 20, title := "Leak"
    description := "Kitchen tap leaks", priority := "high", status := none
    notes := none }

def exM1 : St := applyOp (.createMaintenance 0 exIns) exS1

def exM2 : St := applyOp (.transitionMaintenance 1 2 .in_progress) exM1

def exM3 : St := applyOp (.transitionMaintenance 2 2 .completed) exM2

example : exC4res = .ok (exC4p, exC4s) := by decide
example : exC4s.invoices.map (fun i => (i.id, i.status)) = [(2, .partPaid), (3, .paid)] := by decide
example : exC4s.allocations = [⟨4, 3, 5000⟩, ⟨4, 2, 1000⟩] := by decide
example : exC4p.amount = 6000 ∧ exC4p.status = .paid := by decide
example : exC5res = .ok (exC5p, exC5s) := by decide
example : exC5p.amount = 7000 := by decide
example : exC5s.invoices.map (fun i => i.status) = [.paid] := by decide
example : tenantCredit exC5s 1 = 2000 := by decide
example : stOk exT2 = true := by decide
example : exC2res = (some exC2p, exC2s) := by decide
example : ingestGatewayEvent 7 1 exEv exC2s = (some exC2p, exC2s) := by decide
example : (exM3.maintenance.map (fun m => (m.status, m.completedAt)))
    = [(.completed, some 2)] := by decide
example : transitionMaintenance 3 2 .in_progress exM3 = .error .invalidTransitionError := by
  decide

/-! The claims. -/

/-- C9: a Tenant record inserted without an explicit `isActive` value is
stored with `isActive = true` (the schema default on src/scheme.ts line 73),
and in particular `createLease` yields an active lease. -/
theorem claim_C9 :
    (∀ (ins : InsertTenant) (id : Nat) (c : Int), ins.isActive = none →
      (resolveInsertTenant id c ins).isActive = true) ∧
    (∀ (now : Int) (u pr : Nat) (un : Option Nat) (ls le ra sd : Int) (s : St)
      (t : Tenant) (s' : St), createLease now u pr un ls le ra sd s = .ok (t, s') →
      t.isActive = true) := by
  constructor
  · intro ins id c h
    simp [resolveInsertTenant, h]
  · intro now u pr un ls le ra sd s t s' h
    unfold createLease at h
    split at h
    · exact absurd h (by simp)
    · split at h
      · exact absurd h (by simp)
      · cases h
        rfl

/-- C9 witness: inserting the example lease row with `isActive` omitted
stores an active tenant. -/
theorem claim_C9_witness :
    (resolveInsertTenant 1 0
      { userId := 100, propertyId := some 10, unitId := some 20, leaseStart := 0
        leaseEnd := 1000, rentAmount := 5000, securityDeposit := 0
        isActive := none }).isActive = true :=
  claim_C9.1
    { userId := 100, propertyId := some 10, unitId := some 20, leaseStart := 0
      leaseEnd := 1000, rentAmount := 5000, securityDeposit := 0, isActive := none }
    1 0 rfl

/-- C10: a MaintenanceRequest created through the public insert schema
(which omits `id`, `submittedAt` and `completedAt`, src/scheme.ts line 153)
starts with `completedAt = null`, `submittedAt = now`, and status falling
back to the `'pending'` column default when not supplied. -/
theorem claim_C10 :
    ∀ (ins : InsertMaintenanceRequest) (id : Nat) (now : Int),
      (resolveInsertMaintenanceRequest id now ins).completedAt = none ∧
      (resolveInsertMaintenanceRequest id now ins).submittedAt = now ∧
      (ins.status = none →
        (resolveInsertMaintenanceRequest id now ins).status = .pending) := by
  intro ins id now
  refine ⟨rfl, rfl, ?_⟩
  intro h
  simp [resolveInsertMaintenanceRequest, h]

/-- C10 witness: the example maintenance insert starts pending with no
completion timestamp. -/
theorem claim_C10_witness :
    (resolveInsertMaintenanceRequest 2 0 exIns).completedAt = none ∧
    (resolveInsertMaintenanceRequest 2 0 exIns).submittedAt = 0 ∧
    (resolveInsertMaintenanceRequest 2 0 exIns).status = .pending :=
  ⟨(claim_C10 exIns 2 0).1, (claim_C10 exIns 2 0).2.1, (claim_C10 exIns 2 0).2.2 rfl⟩

/-- C6: `generateInvoice` is idempotent per `(tenantId, periodStart)`: a
second call with the same key (whatever its other arguments) returns the
same Invoice and leaves the store unchanged. -/
theorem claim_C6 :
    ∀ (now1 now2 : Int) (tid : Nat) (ps pe1 pe2 a1 a2 : Int) (s : St),
      generateInvoice now2 tid ps pe2 a2 (generateInvoice now1 tid ps pe1 a1 s).2
        = generateInvoice now1 tid ps pe1 a1 s := by
  intro now1 now2 tid ps pe1 pe2 a1 a2 s
  cases hf : s.invoices.find? (fun i => i.tenantId == tid && i.periodStart == ps) with
  | some i =>
      rw [generateInvoice_found hf now1 pe1 a1]
      exact generateInvoice_found hf now2 pe2 a2
  | none =>
      obtain ⟨h1, h2, h3⟩ := generateInvoice_new_spec hf now1 pe1 a1
      have hfind : ((generateInvoice now1 tid ps pe1 a1 s).2).invoices.find?
          (fun i => i.tenantId == tid && i.periodStart == ps)
          = some (generateInvoice now1 tid ps pe1 a1 s).1 := by
        rw [h3]
        have hstep : (s.invoices ++ [(generateInvoice now1 tid ps pe1 a1 s).1]).find?
            (fun i => i.tenantId == tid && i.periodStart == ps)
            = [(generateInvoice now1 tid ps pe1 a1 s).1].find?
              (fun i => i.tenantId == tid && i.periodStart == ps) := by
          simp [List.find?_append, hf]
        rw [hstep]
        simp [h1, h2]
      exact generateInvoice_found hfind now2 pe2 a2

/-- C7: `createLease` fails with ValidationError whenever leaseEnd ≤
leaseStart or rentAmount ≤ 0, and in every reachable store each stored
Tenant satisfies leaseStart < leaseEnd, rentAmount > 0 and
securityDeposit ≥ 0. -/
theorem claim_C7 :
    (∀ (now : Int) (u pr : Nat) (un : Option Nat) (ls le ra sd : Int) (s : St),
      (le ≤ ls ∨ ra ≤ 0) →
      createLease now u pr un ls le ra sd s = .error .validationError) ∧
    (∀ s : St, Reachable s → ∀ t ∈ s.tenants,
      t.leaseStart < t.leaseEnd ∧ 0 < t.rentAmount ∧ 0 ≤ t.securityDeposit) := by
  constructor
  · intro now u pr un ls le ra sd s h
    unfold createLease
    rw [if_pos (by tauto)]
  · intro s hr t ht
    exact (reachable_stateInv hr).2 t ht

/-- C7 witness: an inverted date range is rejected, and the example
reachable tenant satisfies the stored bounds. -/
theorem claim_C7_witness :
    createLease 0 100 10 (some 20) 5 5 5000 0 St.empty = .error .validationError ∧
    (exTenant1.leaseStart < exTenant1.leaseEnd ∧ 0 < exTenant1.rentAmount ∧
      0 ≤ exTenant1.securityDeposit) :=
  ⟨claim_C7.1 0 100 10 (some 20) 5 5 5000 0 St.empty (Or.inl (le_refl 5)),
   claim_C7.2 exS1 (Reachable.step St.empty exOpLease Reachable.empty)
     exTenant1 (by decide)⟩

/-- C3: in every reachable store, each (Property, Unit) pair has at most one
active Tenant, and `createLease` for a pair already occupied by an active
Tenant whose date range overlaps the requested one fails with
ConflictError. -/
theorem claim_C3 :
    (∀ s : St, Reachable s → ∀ pid uid : Option Nat, countActive s pid uid ≤ 1) ∧
    (∀ (now : Int) (u pr : Nat) (un : Option Nat) (ls le ra sd : Int) (s : St),
      ls < le → 0 < ra → 0 ≤ sd →
      (∃ t ∈ s.tenants, t.isActive = true ∧ t.propertyId = some pr ∧ t.unitId = un ∧
        t.leaseStart < le ∧ ls < t.leaseEnd) →
      createLease now u pr un ls le ra sd s = .error .conflictError) := by
  constructor
  · intro s hr
    exact (reachable_stateInv hr).1
  · intro now u pr un ls le ra sd s h1 h2 h3 hocc
    obtain ⟨t, ht, hact, hpid, huid, _, _⟩ := hocc
    unfold createLease
    rw [if_neg (by omega)]
    rw [if_pos (List.any_eq_true.mpr ⟨t, ht, by simp [hact, hpid, huid]⟩)]

/-- C3 witness: the example store with one active lease satisfies the
cardinality bound, and an overlapping second lease on the same (Property,
Unit) pair is rejected with ConflictError. -/
theorem claim_C3_witness :
    countActive exS1 (some 10) (some 20) ≤ 1 ∧
    createLease 3 101 10 (some 20) 10 900 4000 0 exS1 = .error .conflictError :=
  ⟨claim_C3.1 exS1 (Reachable.step St.empty exOpLease Reachable.empty) (some 10) (some 20),
   claim_C3.2 3 101 10 (some 20) 10 900 4000 0 exS1 (by decide) (by decide) (by decide)
     (by decide)⟩

def dummyMaint : MaintenanceRequest :=
  { id := 0, tenantId := 0, propertyId := 0, unitId := none, title := ""
    description := "", priority := "", status := .pending, submittedAt := 0
    completedAt := none, notes := none }

def exM3r : MaintenanceRequest :=
  (exM3.maintenance.find? (fun m => m.id == 2)).getD dummyMaint

/-- C8: the maintenance transitions are exactly pending → in_progress →
completed and pending/in_progress → canceled; a disallowed transition fails
with InvalidTransitionError and leaves the store unchanged; `completedAt`
is written on entry to completed and only there; and a completed request is
never modified by any later operation. -/
theorem claim_C8 :
    (∀ a b : MaintenanceStatus, allowedTransition a b = true ↔
      ((a = .pending ∧ b = .in_progress) ∨ (a = .in_progress ∧ b = .completed) ∨
       (a = .pending ∧ b = .canceled) ∨ (a = .in_progress ∧ b = .canceled))) ∧
    (∀ (now : Int) (rid : Nat) (tgt : MaintenanceStatus) (s : St)
      (r : MaintenanceRequest),
      s.maintenance.find? (fun m => m.id == rid) = some r →
      allowedTransition r.status tgt = false →
      transitionMaintenance now rid tgt s = .error .invalidTransitionError ∧
      applyOp (.transitionMaintenance now rid tgt) s = s) ∧
    (∀ (now : Int) (rid : Nat) (s s' : St),
      transitionMaintenance now rid .completed s = .ok s' →
      ∀ m ∈ s.maintenance, m.id = rid → allowedTransition m.status .completed = true →
        ({ m with status := .completed, completedAt := some now } : MaintenanceRequest)
          ∈ s'.maintenance) ∧
    (∀ (now : Int) (rid : Nat) (tgt : MaintenanceStatus) (s s' : St),
      tgt ≠ .completed →
      transitionMaintenance now rid tgt s = .ok s' →
      s'.maintenance.map (fun m => m.completedAt)
        = s.maintenance.map (fun m => m.completedAt)) ∧
    (∀ (op : Op) (s : St) (m : MaintenanceRequest), m ∈ s.maintenance →
      m.status = .completed → m ∈ (applyOp op s).maintenance) := by
  refine ⟨by intro a b; cases a <;> cases b <;> decide, ?_, ?_, ?_, ?_⟩
  · intro now rid tgt s r hfind hallow
    have herr : transitionMaintenance now rid tgt s = .error .invalidTransitionError := by
      unfold transitionMaintenance
      rw [hfind]
      simp [hallow]
    refine ⟨herr, ?_⟩
    simp only [applyOp]
    rw [herr]
  · intro now rid s s' h m hm hid hallow
    rw [transitionMaintenance_ok_state h]
    refine List.mem_map.mpr ⟨m, hm, ?_⟩
    simp [hid, hallow]
  · intro now rid tgt s s' htgt h
    rw [transitionMaintenance_ok_state h]
    simp only [List.map_map]
    apply List.map_congr_left
    intro m _
    simp only [Function.comp]
    split
    · simp
      intro h2
      exact absurd h2 htgt
    · rfl
  · intro op s m hm hcomp
    have hterm : ∀ tgt, allowedTransition m.status tgt = false := by
      intro tgt
      rw [hcomp]
      cases tgt <;> rfl
    cases op with
    | createLease now u pr un ls le ra sd =>
        simp only [applyOp]
        cases hres : createLease now u pr un ls le ra sd s with
        | error e => exact hm
        | ok r =>
            show m ∈ (r.2).maintenance
            rw [createLease_ok_state hres]
            exact hm
    | terminateLease now tid =>
        simp only [applyOp]
        cases hres : terminateLease now tid s with
        | error e => exact hm
        | ok s2 =>
            show m ∈ s2.maintenance
            rw [terminateLease_ok_state hres]
            exact hm
    | generateInvoice now tid ps pe a =>
        simp only [applyOp]
        rw [generateInvoice_snd_maintenance]
        exact hm
    | recordPayment now tid a md g =>
        simp only [applyOp]
        cases hres : recordPayment now tid a md g s with
        | error e => exact hm
        | ok r =>
            obtain ⟨p, s2⟩ := r
            show m ∈ s2.maintenance
            rw [recordPayment_ok_maintenance hres]
            exact hm
    | recomputeStatus now iid =>
        simp only [applyOp, recomputeStatus_maintenance]
        exact hm
    | ingestGatewayEvent now tid e =>
        simp only [applyOp]
        rw [ingest_snd_maintenance]
        exact hm
    | createMaintenance now ins =>
        simp only [applyOp, createMaintenance]
        exact List.mem_append_left _ hm
    | transitionMaintenance now rid tgt =>
        simp only [applyOp]
        cases hres : transitionMaintenance now rid tgt s with
        | error e => exact hm
        | ok s2 =>
            show m ∈ s2.maintenance
            rw [transitionMaintenance_ok_state hres]
            refine List.mem_map.mpr ⟨m, hm, ?_⟩
            simp [hterm tgt]

/-- C8 witness: in the example store whose request has reached completed,
the backward move completed → in_progress raises InvalidTransitionError and
leaves the store unchanged. -/
theorem claim_C8_witness :
    transitionMaintenance 3 2 .in_progress exM3 = .error .invalidTransitionError ∧
    applyOp (.transitionMaintenance 3 2 .in_progress) exM3 = exM3 :=
  claim_C8.2.1 3 2 .in_progress exM3 exM3r (by decide) (by decide)

def dummyInvoice : Invoice :=
  { id := 0, tenantId := 0, amount := 0, issueDate := 0, dueDate := 0
    status := .pending, notes := none, createdAt := 0, periodStart := 0 }

def exC1s : St := recomputeStatus 5 2 exT2

def exC1i : Invoice := (exC1s.invoices.find? (fun i => i.id == 2)).getD dummyInvoice

/-- C1: after `recomputeStatus` the touched invoice's status is the pure
function of its allocation sum, amount and due date; after a successful
`recordPayment` every invoice either carries that pure status or is left
with its previous status and an unchanged allocation sum; and no other
operation rewrites the status of an existing invoice (they at most append
new invoices). -/
theorem claim_C1 :
    (∀ (now : Int) (iid : Nat) (s : St), ∀ i ∈ (recomputeStatus now iid s).invoices,
      i.id = iid →
      i.status = invoiceStatusOf (paidSum (recomputeStatus now iid s) i.id)
        i.amount i.dueDate now) ∧
    (∀ (now : Int) (tid : Nat) (a : Int) (m : String) (g : Option String) (s : St)
      (p : Payment) (s' : St), recordPayment now tid a m g s = .ok (p, s') →
      ∀ i ∈ s'.invoices,
        i.status = invoiceStatusOf (paidSum s' i.id) i.amount i.dueDate now ∨
        (i ∈ s.invoices ∧ paidSum s' i.id = paidSum s i.id)) ∧
    (∀ (op : Op) (s : St), writesInvoiceStatus op = false →
      ∃ tl, (applyOp op s).invoices = s.invoices ++ tl) := by
  refine ⟨?_, ?_, ?_⟩
  · intro now iid s i hi hid
    rw [recomputeStatus_invoices] at hi
    rcases List.mem_map.mp hi with ⟨j, hj, hfj⟩
    by_cases hjid : (j.id == iid) = true
    · rw [if_pos hjid] at hfj
      subst hfj
      simp only [paidSum_recomputeStatus]
      have hj2 : j.id = iid := by simpa using hjid
      simp [hj2]
    · rw [if_neg hjid] at hfj
      subst hfj
      exact absurd hid (by simpa using hjid)
  · intro now tid a m g s p s' h i hi
    rcases (recordPayment_ok_cases h).2.2 with ⟨hrep, rfl⟩ | ⟨hrep, hp, hs⟩
    · exact Or.inr ⟨hi, rfl⟩
    · subst hs
      exact postState_invoices_status now tid a m g s i hi
  · intro op s hw
    cases op with
    | createLease now u pr un ls le ra sd =>
        simp only [applyOp]
        cases hres : createLease now u pr un ls le ra sd s with
        | error e => exact ⟨[], (List.append_nil _).symm⟩
        | ok r =>
            refine ⟨[], ?_⟩
            show r.2.invoices = _
            rw [createLease_ok_state hres]
            simp
    | terminateLease now tid =>
        simp only [applyOp]
        cases hres : terminateLease now tid s with
        | error e => exact ⟨[], (List.append_nil _).symm⟩
        | ok s2 =>
            refine ⟨[], ?_⟩
            show s2.invoices = _
            rw [terminateLease_ok_state hres]
            simp
    | generateInvoice now tid ps pe a =>
        simp only [applyOp]
        exact generateInvoice_snd_invoices now tid ps pe a s
    | recordPayment now tid a md g => simp [writesInvoiceStatus] at hw
    | recomputeStatus now iid => simp [writesInvoiceStatus] at hw
    | ingestGatewayEvent now tid e => simp [writesInvoiceStatus] at hw
    | createMaintenance now ins =>
        refine ⟨[], ?_⟩
        simp [applyOp, createMaintenance]
    | transitionMaintenance now rid tgt =>
        simp only [applyOp]
        cases hres : transitionMaintenance now rid tgt s with
        | error e => exact ⟨[], (List.append_nil _).symm⟩
        | ok s2 =>
            refine ⟨[], ?_⟩
            show s2.invoices = _
            rw [transitionMaintenance_ok_state hres]
            simp

/-- C1 witness: recomputing invoice 2 of the example store yields exactly
the pure status of its allocation sum. -/
theorem claim_C1_witness :
    exC1i.status = invoiceStatusOf (paidSum exC1s exC1i.id)
      exC1i.amount exC1i.dueDate 5 :=
  claim_C1.1 5 2 exT2 exC1i (by decide) (by decide)

/-- C4: `recordPayment` allocates over the tenant's outstanding invoices in
ascending due-date order (the selection is sorted and is a permutation of
the outstanding filter), the greedy allocation fully settles every selected
invoice except possibly the last and never allocates more than min(amount,
total owed); concretely, paying 6000 against invoices of 5000 (older) and
3000 makes the older invoice paid with 5000 applied and the other partial
with 1000 applied. -/
theorem claim_C4 :
    (∀ (s : St) (tid : Nat),
      (sortedOutstanding s tid).Pairwise (fun i j => i.dueDate ≤ j.dueDate)) ∧
    (∀ (s : St) (tid : Nat),
      List.Perm (sortedOutstanding s tid)
        (s.invoices.filter (fun i => i.tenantId == tid && isOutstanding i.status))) ∧
    (∀ (A : Int) (l : List (Nat × Int)),
      ∀ pr ∈ ((allocate A l).dropLast).zip l, pr.1.2 = pr.2.2) ∧
    (∀ (A : Int) (l : List (Nat × Int)),
      ∀ pr ∈ (allocate A l).zip l, pr.1.1 = pr.2.1) ∧
    (∀ (A : Int) (l : List (Nat × Int)), 0 ≤ A → (∀ q ∈ l, 0 ≤ q.2) →
      ((allocate A l).map (fun x => x.2)).sum = min A ((l.map (fun x => x.2)).sum)) ∧
    (recordPayment 5 1 6000 "cash" none exS3 = .ok (exC4p, exC4s) ∧
     exC4s.invoices.map (fun i => (i.id, i.status)) = [(2, .partPaid), (3, .paid)] ∧
     exC4s.allocations = [⟨4, 3, 5000⟩, ⟨4, 2, 1000⟩] ∧
     exC4p.status = .paid) := by
  refine ⟨?_, ?_, allocate_dropLast_settles, allocate_zip_fst, allocate_sum, by decide⟩
  · intro s tid
    exact sortByDue_pairwise _
  · intro s tid
    exact sortByDue_perm _

/-- C4 witness: on the example owed list the allocation total is the whole
payment, which is below the total owed. -/
theorem claim_C4_witness :
    ((allocate 6000 [(3, 5000), (2, 3000)]).map (fun x => x.2)).sum
      = min 6000 (([((3 : Nat), (5000 : Int)), (2, 3000)].map (fun x => x.2)).sum) :=
  claim_C4.2.2.2.2.1 6000 [(3, 5000), (2, 3000)] (by decide) (by decide)

/-- C5: `recordPayment` fails with ValidationError exactly when the amount
is non-positive, fails with NotFoundError (for a positive amount) exactly
when the tenant is absent, and otherwise always succeeds — overpayment
included: paying 7000 against a 5000 invoice records the full 7000, marks
the invoice paid, and leaves 2000 as unapplied tenant credit with no
error. -/
theorem claim_C5 :
    (∀ (now : Int) (tid : Nat) (a : Int) (m : String) (g : Option String) (s : St),
      recordPayment now tid a m g s = .error .validationError ↔ a ≤ 0) ∧
    (∀ (now : Int) (tid : Nat) (a : Int) (m : String) (g : Option String) (s : St),
      0 < a →
      (recordPayment now tid a m g s = .error .notFoundError ↔
        s.tenants.find? (fun t => t.id == tid) = none)) ∧
    (∀ (now : Int) (tid : Nat) (a : Int) (m : String) (g : Option String) (s : St),
      0 < a → (s.tenants.find? (fun t => t.id == tid)).isSome = true →
      ∃ p s', recordPayment now tid a m g s = .ok (p, s')) ∧
    (recordPayment 5 1 7000 "cash" none exT2 = .ok (exC5p, exC5s) ∧
     exC5p.amount = 7000 ∧
     exC5s.invoices.map (fun i => i.status) = [.paid] ∧
     tenantCredit exC5s 1 = 2000) := by
  refine ⟨?_, ?_, ?_, by decide⟩
  · intro now tid a m g s
    constructor
    · intro h
      by_contra hA
      unfold recordPayment at h
      rw [if_neg hA] at h
      split at h
      · simp at h
      · split at h <;> simp at h
    · intro hA
      unfold recordPayment
      rw [if_pos hA]
  · intro now tid a m g s h0
    constructor
    · intro h
      unfold recordPayment at h
      rw [if_neg (by omega)] at h
      by_cases hT : (s.tenants.find? (fun t => t.id == tid)).isNone = true
      · exact Option.isNone_iff_eq_none.mp hT
      · rw [if_neg hT] at h
        split at h <;> simp at h
    · intro hnone
      unfold recordPayment
      rw [if_neg (by omega), if_pos (by simp [hnone])]
  · intro now tid a m g s h0 hsome
    have hT : (s.tenants.find? (fun t => t.id == tid)).isNone = false := by
      rcases Option.isSome_iff_exists.mp hsome with ⟨t, hteq⟩
      rw [hteq]
      rfl
    exact recordPayment_success (by omega) hT

/-- C5 witness: for a positive amount against the example store, a missing
tenant id is characterised by NotFoundError. -/
theorem claim_C5_witness :
    recordPayment 5 99 7000 "cash" none exT2 = .error .notFoundError ↔
      exT2.tenants.find? (fun t => t.id == 99) = none :=
  claim_C5.2.1 5 99 7000 "cash" none exT2 (by decide)

/-- C2: after a first successful `ingestGatewayEvent` for a gateway event,
replaying the same event any number of times returns the same linked
Payment and the identical store (so no additional Payment and no change to
any invoice balance), and a GatewayTransaction that is already linked to a
Payment is never modified, so each transaction links to at most one
Payment. -/
theorem claim_C2 :
    ∀ (now : Int) (tid : Nat) (e : GatewayEvent) (s : St) (p : Payment) (s' : St),
      stOk s = true →
      ingestGatewayEvent now tid e s = (some p, s') →
      (∀ now2 : Int, ingestGatewayEvent now2 tid e s' = (some p, s')) ∧
      (∀ tx ∈ s.mpesa, tx.paymentId.isSome = true → tx ∈ s'.mpesa) := by
  intro now tid e s p s' hok hing
  unfold ingestGatewayEvent at hing
  split at hing
  · exact absurd hing (by simp)
  · rename_i hfail
    revert hing
    cases hrp : recordPayment now tid (e.amount) "mpesa" (some e.transactionId)
        (insertEventTx now e s) with
    | error err =>
        intro hing
        exact absurd hing (by simp)
    | ok r =>
        obtain ⟨p0, s2⟩ := r
        intro hing
        obtain ⟨hp0, hs2⟩ : p0 = p ∧ s2 = s' := by simpa using hing
        subst hp0
        subst hs2
        obtain ⟨hA, hT, hbranch⟩ := recordPayment_ok_cases hrp
        have hany1 : (insertEventTx now e s).mpesa.any
            (fun tx => tx.transactionId == e.transactionId) = true :=
          insertEventTx_any now e s
        rcases hbranch with ⟨hrep, hseq⟩ | ⟨hrep, hpEq, hsEq⟩
        · subst hseq
          constructor
          · intro now2
            unfold ingestGatewayEvent
            rw [if_neg hfail, insertEventTx_of_any hany1]
            have hrp2 : recordPayment now2 tid (e.amount) "mpesa" (some e.transactionId)
                (insertEventTx now e s) = .ok (p0, insertEventTx now e s) := by
              unfold recordPayment
              rw [if_neg hA, if_neg (by simp [hT]), hrep]
            rw [hrp2]
          · intro tx htx hsome
            exact insertEventTx_mem htx
        · subst hpEq
          subst hsEq
          obtain ⟨tx0, hfind0⟩ : ∃ tx0, (insertEventTx now e s).mpesa.find?
              (fun mt => mt.transactionId == e.transactionId) = some tx0 := by
            have h1 : ((insertEventTx now e s).mpesa.find?
                (fun mt => mt.transactionId == e.transactionId)).isSome := by
              rw [List.find?_isSome]
              exact List.any_eq_true.mp hany1
            exact Option.isSome_iff_exists.mp h1
          have htx0pred : (tx0.transactionId == e.transactionId) = true := by
            have h2 := List.find?_some hfind0
            simpa using h2
          have htx0pid : tx0.paymentId = none := by
            cases hpid : tx0.paymentId with
            | none => rfl
            | some pid =>
                exfalso
                have hmem0 : tx0 ∈ (insertEventTx now e s).mpesa :=
                  List.mem_of_find?_eq_some hfind0
                have hanyq := insertEventTx_links hok now e tx0 hmem0 pid hpid
                have hq : ((insertEventTx now e s).payments.find?
                    (fun q => q.id == pid)).isSome := by
                  rw [List.find?_isSome]
                  exact List.any_eq_true.mp hanyq
                obtain ⟨q, hq2⟩ := Option.isSome_iff_exists.mp hq
                have hcontra : replayPayment (insertEventTx now e s)
                    (some e.transactionId) = some q := by
                  rw [replayPayment_some, hfind0]
                  simp [Option.bind, hpid, hq2]
                rw [hrep] at hcontra
                exact Option.noConfusion hcontra
          have hpay1 : ∀ q ∈ (insertEventTx now e s).payments,
              q.id < (insertEventTx now e s).nextId := by
            rw [insertEventTx_payments]
            intro q hq
            exact lt_of_lt_of_le (stOk_payments hok q hq) (insertEventTx_nextId_le now e s)
          constructor
          · intro now2
            unfold ingestGatewayEvent
            rw [if_neg hfail]
            have hanyP : (postState now tid (e.amount) "mpesa" (some e.transactionId)
                (insertEventTx now e s)).mpesa.any
                (fun tx => tx.transactionId == e.transactionId) = true := by
              rw [postState_mpesa, linkGateway_any]
              exact hany1
            rw [insertEventTx_of_any hanyP]
            have hfindP : (postState now tid (e.amount) "mpesa" (some e.transactionId)
                (insertEventTx now e s)).mpesa.find?
                (fun mt => mt.transactionId == e.transactionId)
                = some { tx0 with paymentId := some (insertEventTx now e s).nextId } := by
              rw [postState_mpesa, linkGateway_find?, hfind0]
              have heq0 : tx0.transactionId = e.transactionId := by simpa using htx0pred
              simp [heq0, htx0pid]
            have hfq : (postState now tid (e.amount) "mpesa" (some e.transactionId)
                (insertEventTx now e s)).payments.find?
                (fun q => q.id == (insertEventTx now e s).nextId)
                = some (paymentOf now tid (e.amount) "mpesa" (some e.transactionId)
                    (insertEventTx now e s)) := by
              rw [postState_payments]
              have hnone : (insertEventTx now e s).payments.find?
                  (fun q => q.id == (insertEventTx now e s).nextId) = none := by
                rw [List.find?_eq_none]
                intro q hq
                have := hpay1 q hq
                simp only [beq_iff_eq]
                omega
              have hstep : ((insertEventTx now e s).payments
                  ++ [paymentOf now tid (e.amount) "mpesa" (some e.transactionId)
                      (insertEventTx now e s)]).find?
                  (fun q => q.id == (insertEventTx now e s).nextId)
                  = [paymentOf now tid (e.amount) "mpesa" (some e.transactionId)
                      (insertEventTx now e s)].find?
                    (fun q => q.id == (insertEventTx now e s).nextId) := by
                simp [List.find?_append, hnone]
              rw [hstep]
              simp [paymentOf]
            have hreplay2 : replayPayment (postState now tid (e.amount) "mpesa"
                (some e.transactionId) (insertEventTx now e s)) (some e.transactionId)
                = some (paymentOf now tid (e.amount) "mpesa" (some e.transactionId)
                    (insertEventTx now e s)) := by
              rw [replayPayment_some, hfindP]
              simp [Option.bind, hfq]
            have hrp2 : recordPayment now2 tid (e.amount) "mpesa" (some e.transactionId)
                (postState now tid (e.amount) "mpesa" (some e.transactionId)
                  (insertEventTx now e s))
                = .ok (paymentOf now tid (e.amount) "mpesa" (some e.transactionId)
                    (insertEventTx now e s),
                  postState now tid (e.amount) "mpesa" (some e.transactionId)
                    (insertEventTx now e s)) := by
              unfold recordPayment
              rw [if_neg hA,
                if_neg (by rw [postState_tenants]; simp [hT]),
                hreplay2]
            rw [hrp2]
          · intro tx htx hsome
            have htx1 : tx ∈ (insertEventTx now e s).mpesa := insertEventTx_mem htx
            rw [postState_mpesa]
            unfold linkGateway
            refine List.mem_map.mpr ⟨tx, htx1, ?_⟩
            have hnone : tx.paymentId.isNone = false := by
              rcases Option.isSome_iff_exists.mp hsome with ⟨v, hv⟩
              rw [hv]
              rfl
            simp [hnone]

/-- C2 witness: replaying the example gateway event against the store it
produced returns the same payment and the identical store. -/
theorem claim_C2_witness :
    ingestGatewayEvent 7 1 exEv exC2s = (some exC2p, exC2s) :=
  (claim_C2 5 1 exEv exT2 exC2p exC2s (by decide) (by decide)).1 7

end PropMgmt
